import Mathlib

/-!
Verification development for the AgentsChatGroup chat-context core.

The definitions below are a shallow embedding of the Rust sources
`crates/services/src/services/chat.rs` and
`crates/services/src/services/chat_history_file.rs`:

* text is modelled as `String` / `List Char`; "character length" means the
  number of Unicode scalar values (Rust `str::chars().count()`), while byte
  length means the UTF-8 encoded size (Rust `str::len()`);
* the relational store and the filesystem are modelled as explicit state
  values threaded through the operations that the Rust code performs on them;
* JSON metadata values are modelled by the inductive `Jval`;
* fallible operations return `Except` of the service error type.
-/

/-- Character length of a string: the number of Unicode scalar values,
matching Rust `s.chars().count()`. -/
def charLen (s : String) : Nat := s.toList.length

/-- UTF-8 encoded size of one character, matching Rust `char::len_utf8`. -/
def utf8Len (c : Char) : Nat :=
  if c.toNat < 0x80 then 1
  else if c.toNat < 0x800 then 2
  else if c.toNat < 0x10000 then 3
  else 4

/-- UTF-8 byte length of a string, matching Rust `str::len`. -/
def byteLen (s : String) : Nat := (s.toList.map utf8Len).sum

/-- The Unicode White_Space property, matching Rust `char::is_whitespace`. -/
def isRustWhitespace (c : Char) : Bool :=
  let n := c.toNat
  (0x9 ≤ n && n ≤ 0xD) || n == 0x20 || n == 0x85 || n == 0xA0 || n == 0x1680 ||
  (0x2000 ≤ n && n ≤ 0x200A) || n == 0x2028 || n == 0x2029 || n == 0x202F ||
  n == 0x205F || n == 0x3000

/-- ASCII alphanumeric test, matching Rust `char::is_ascii_alphanumeric`. -/
def isAsciiAlnum (c : Char) : Bool :=
  (('0' ≤ c) && (c ≤ '9')) || (('a' ≤ c) && (c ≤ 'z')) || (('A' ≤ c) && (c ≤ 'Z'))

/-- Drop the longest run of characters satisfying `p` from the end of a list. -/
def dropTrailing (p : Char → Bool) (l : List Char) : List Char :=
  (l.reverse.dropWhile p).reverse

/-- Whitespace trim on a character list, matching Rust `str::trim` (which
removes Unicode White_Space from both ends). -/
def trimChars (l : List Char) : List Char :=
  dropTrailing isRustWhitespace (l.dropWhile isRustWhitespace)

/-- The trim of a string as a string, i.e. Rust `content.trim()`. -/
def trimStr (s : String) : String := ⟨trimChars s.toList⟩

/-- Greatest index `i` with `lo ≤ i < hi` satisfying `p`, scanning downward:
this models the Rust loop `for i in (lo..hi).rev()` with an early `break`. -/
def scanRev (p : Nat → Bool) (lo : Nat) : Nat → Option Nat
  | 0 => none
  | hi + 1 =>
    if lo ≤ hi then
      if p hi then some hi else scanRev p lo hi
    else none

/-- The fixed truncation marker appended by the compressor
(the Rust literal in `format!`). -/
def truncationMarker : List Char := "...[truncated]".toList

/-- Sentence-terminal characters recognised by the compressor. -/
def sentenceEnd (c : Char) : Bool :=
  c == '.' || c == '!' || c == '?' || c == '。' || c == '！' || c == '？'

/-- Word-boundary characters recognised by the compressor. -/
def wordBoundary (c : Char) : Bool := isRustWhitespace c || c == ','

/-- Shallow embedding of `compress_content` (chat.rs, lines 68-98):
trim the content; if it already fits the character budget, return it; else
scan backward in `[max_chars/2, max_chars)` for a sentence end (break after
it), then — only when that left the break point at `max_chars` — for a
whitespace/comma boundary (break before it), then take the chosen prefix,
trim it and append the truncation marker. -/
def compress_content (content : String) (max_chars : Nat) : String :=
  let cs := trimChars content.toList
  if cs.length ≤ max_chars then ⟨cs⟩
  else
    let bp1 :=
      match scanRev (fun i => decide (i < cs.length) && sentenceEnd (cs.getD i ' '))
          (max_chars / 2) max_chars with
      | some i => i + 1
      | none => max_chars
    let bp :=
      if bp1 = max_chars then
        match scanRev (fun i => decide (i < cs.length) && wordBoundary (cs.getD i ' '))
            (max_chars / 2) max_chars with
        | some i => i
        | none => max_chars
      else bp1
    let truncated := cs.take (min bp cs.length)
    ⟨trimChars truncated ++ truncationMarker⟩

/-- Characters that may appear inside a mention handle
(`is_ascii_alphanumeric`, underscore, hyphen). -/
def mentionChar (c : Char) : Bool := isAsciiAlnum c || c == '_' || c == '-'

/-- Characters that, immediately before an `@`, block a mention
(`is_ascii_alphanumeric`, underscore, hyphen, dot). -/
def mentionBlockingPrev (c : Char) : Bool :=
  isAsciiAlnum c || c == '_' || c == '-' || c == '.'

/-- The check on the character before an `@`: a mention may start when there
is no previous character (`i = 0`) or the previous character is not
alphanumeric/underscore/hyphen/dot. -/
def atStartOk : Option Char → Bool
  | none => true
  | some p => ! mentionBlockingPrev p

/-- Worker for `parse_mentions`: walks the character list carrying the
previous character (the Rust loop index `i` with its `chars[i - 1]` check),
the seen-set and the accumulated mention list. -/
def parseMentionsGo : Option Char → List Char → List String → List String → List String
  | _, [], _, acc => acc
  | prev, c :: t, seen, acc =>
    if c == '@' && atStartOk prev then
      let name : String := ⟨t.takeWhile mentionChar⟩
      if name ≠ "" ∧ ¬ seen.contains name then
        parseMentionsGo (some c) t (name :: seen) (acc ++ [name])
      else
        parseMentionsGo (some c) t seen acc
    else
      parseMentionsGo (some c) t seen acc

/-- Shallow embedding of `parse_mentions` (chat.rs, lines 194-229). -/
def parse_mentions (content : String) : List String :=
  parseMentionsGo none content.toList [] []

/-- A JSON value (serde_json `Value`), as far as the chat core inspects it. -/
inductive Jval where
  | null
  | bool (b : Bool)
  | num (n : Int)
  | str (s : String)
  | arr (items : List Jval)
  | obj (fields : List (String × Jval))

/-- Field lookup in a JSON object field list (first match, as in a map). -/
def lookupField : List (String × Jval) → String → Option Jval
  | [], _ => none
  | (k, v) :: t, key => if k == key then some v else lookupField t key

/-- Rust `Value::get(key)`: field of an object, `None` on non-objects. -/
def Jval.get? : Jval → String → Option Jval
  | .obj fields, key => lookupField fields key
  | _, _ => none

/-- Rust `Value::as_str`. -/
def Jval.asStr : Jval → Option String
  | .str s => some s
  | _ => none

/-- Whether the value is a JSON object (Rust `Value::is_object`). -/
def Jval.isObj : Jval → Bool
  | .obj _ => true
  | _ => false

/-- Replace the value under `key` in an object field list, or append the
binding if absent: the effect of `map.insert` behind `meta[key] = v`. -/
def setField (fields : List (String × Jval)) (key : String) (v : Jval) :
    List (String × Jval) :=
  match fields with
  | [] => [(key, v)]
  | (k, w) :: t => if k == key then (k, v) :: t else (k, w) :: setField t key v

/-- Rust `meta[key] = v` on an object value (the code only does this after
ensuring the value is an object). -/
def Jval.set (m : Jval) (key : String) (v : Jval) : Jval :=
  match m with
  | .obj fields => .obj (setField fields key v)
  | other => other

/-- Attachment metadata record (chat.rs `ChatAttachmentMeta`).
UUIDs are modelled as opaque strings throughout this development. -/
structure ChatAttachmentMeta where
  id : String
  name : String
  mime_type : Option String
  size_bytes : Int
  kind : String
  relative_path : String

/-- Serde decoding of one `ChatAttachmentMeta` from a JSON value: an object
with all mandatory fields present and of the right shape (`Option` fields
may be missing or null; unknown fields are ignored, as serde does by
default). UUID string parsing is abstracted away (any string accepted). -/
def decodeAttachment (v : Jval) : Option ChatAttachmentMeta :=
  match v with
  | .obj fields => do
    let id ← (lookupField fields "id").bind Jval.asStr
    let name ← (lookupField fields "name").bind Jval.asStr
    let mime_type ←
      match lookupField fields "mime_type" with
      | none => some none
      | some .null => some none
      | some (.str s) => some (some s)
      | some _ => none
    let size_bytes ←
      match lookupField fields "size_bytes" with
      | some (.num n) => some n
      | _ => none
    let kind ← (lookupField fields "kind").bind Jval.asStr
    let relative_path ← (lookupField fields "relative_path").bind Jval.asStr
    pure { id, name, mime_type, size_bytes, kind, relative_path }
  | _ => none

/-- Decode a JSON array of attachments; any failing element fails the list
(serde `Vec<ChatAttachmentMeta>`). -/
def decodeAttachmentList (v : Jval) : Option (List ChatAttachmentMeta) :=
  match v with
  | .arr items => items.mapM decodeAttachment
  | _ => none

/-- Shallow embedding of `extract_attachments` (chat.rs, lines 47-51):
the decoded `attachments` field, or the empty list when absent or
undecodable (`.ok().unwrap_or_default()`). -/
def extract_attachments (meta : Jval) : List ChatAttachmentMeta :=
  match (meta.get? "attachments").bind decodeAttachmentList with
  | some l => l
  | none => []

/-- Shallow embedding of `has_attachments` (chat.rs, lines 53-55). -/
def has_attachments (meta : Jval) : Bool :=
  ! (extract_attachments meta).isEmpty

/-- Sender kind of a chat message (db `ChatSenderType`). -/
inductive ChatSenderType where
  | user
  | agent
  | system
deriving DecidableEq

/-- Serde string tag of a sender kind (used when the code embeds the kind in
a JSON metadata block; the exact tag spelling is not claim-relevant). -/
def ChatSenderType.tag : ChatSenderType → String
  | .user => "user"
  | .agent => "agent"
  | .system => "system"

/-- An agent directory row (db `ChatAgent`), at the interface the chat core
uses: identity and display name. -/
structure ChatAgent where
  id : String
  name : String

/-- A stored chat message (db `ChatMessage`), at the interface the chat core
uses. `created_at` is an opaque timestamp string; `meta` is the free-form
JSON metadata object. -/
structure ChatMessage where
  id : String
  session_id : String
  sender_type : ChatSenderType
  sender_id : Option String
  content : String
  mentions : List String
  meta : Jval
  created_at : String

/-- Resolved sender descriptor placed in a structured context entry. -/
structure SenderInfo where
  stype : ChatSenderType
  id : Option String
  handle : Option String
  name : Option String
  label : String

/-- One structured context entry (the JSON object pushed into `result` by
the context assembler), with the `compressed` flag. -/
structure ContextEntry where
  id : String
  session_id : String
  created_at : String
  sender : SenderInfo
  content : String
  mentions : List String
  meta : Jval
  compressed : Bool

/-- `HashMap` built by `collect` from the agent list, queried by id: on
duplicate ids the later entry wins, hence the reversed search. -/
def agentName (agents : List ChatAgent) (id : String) : Option String :=
  (agents.reverse.find? (fun a => a.id == id)).map (fun a => a.name)

/-- Maximum number of messages to include in context (chat.rs line 17). -/
def MAX_CONTEXT_MESSAGES : Nat := 30

/-- Number of recent messages to keep in full (chat.rs line 19). -/
def RECENT_MESSAGES_FULL : Nat := 5

/-- Sender resolution shared by both context builders (chat.rs, lines
125-151): handle from metadata, display name from the agent directory,
label by sender kind. -/
def resolveSender (agents : List ChatAgent) (m : ChatMessage) : SenderInfo :=
  let sender_handle := (m.meta.get? "sender_handle").bind Jval.asStr
  let sender_name := m.sender_id.bind (agentName agents)
  let sender_label :=
    match m.sender_type with
    | .user => sender_handle.getD "user"
    | .agent =>
      match sender_name with
      | some n => n
      | none =>
        match m.sender_id with
        | some id => id
        | none => "agent"
    | .system => "system"
  { stype := m.sender_type, id := m.sender_id, handle := sender_handle,
    name := sender_name, label := sender_label }

/-- Compression budget for a non-recent message (chat.rs, lines 161-163):
40% of the original character count, clamped to at least 100 and at most
500. The Rust code computes the 40% via `(len as f64 * 0.4) as usize`;
for every length this equals `2 * len / 5` in natural-number arithmetic
(for lengths up to 1250 — beyond which the clamp makes the value 500 in
both readings — the f64 product rounds to within half an ulp of the exact
value, so truncation agrees with the exact floor). -/
def compressionBudget (originalLen : Nat) : Nat :=
  min (max (2 * originalLen / 5) 100) 500

/-- Loop body of the compacted-context builder (chat.rs, lines 124-189):
build the entry for the message at index `idx` out of `count` retained
messages. Recent messages keep full content and metadata; older ones get
compressed content and metadata reduced to the `sender` field. -/
def mkEntry (agents : List ChatAgent) (count idx : Nat) (m : ChatMessage) :
    ContextEntry :=
  let is_recent := count - RECENT_MESSAGES_FULL ≤ idx
  let content :=
    if is_recent then m.content
    else compress_content m.content (compressionBudget (charLen m.content))
  let meta :=
    if is_recent then m.meta
    else
      match m.meta.get? "sender" with
      | some v => .obj [("sender", v)]
      | none => .obj []
  { id := m.id, session_id := m.session_id, created_at := m.created_at,
    sender := resolveSender agents m, content := content,
    mentions := m.mentions, meta := meta, compressed := ! is_recent }

/-- `iter.enumerate()` followed by a map: apply `f` to each element together
with its index, starting from `k`. -/
def mapWithIdx (f : Nat → α → β) : Nat → List α → List β
  | _, [] => []
  | k, a :: t => f k a :: mapWithIdx f (k + 1) t

/-- The message window retained by the compacted-context builder (chat.rs,
lines 113-119): when the session holds more than `MAX_CONTEXT_MESSAGES`
messages, skip all but the most recent `MAX_CONTEXT_MESSAGES`. -/
def contextWindow (messages : List ChatMessage) : List ChatMessage :=
  if messages.length > MAX_CONTEXT_MESSAGES then
    messages.drop (messages.length - MAX_CONTEXT_MESSAGES)
  else messages

/-- Shallow embedding of `build_structured_messages_with_compression`
(chat.rs, lines 104-192). `messages` is the list returned by the store's
`find_by_session_id` for the session, in ascending creation order, and
`agents` the full agent directory; the database reads themselves are
collaborator calls outside this core. -/
def build_structured_messages_with_compression
    (agents : List ChatAgent) (messages : List ChatMessage) : List ContextEntry :=
  mapWithIdx (mkEntry agents (contextWindow messages).length) 0 (contextWindow messages)

/-- Simplified message stored in a chat history file
(chat_history_file.rs, lines 20-28). -/
structure SimplifiedMessage where
  sender : String
  content : String
  timestamp : String
deriving DecidableEq

/-- Metadata block of a chat history file (chat_history_file.rs, lines
31-39). `token_count` is a `u32` in the source; it is modelled as a natural
number already reduced modulo `2 ^ 32` where the code casts. -/
structure ChatHistoryMetadata where
  token_count : Nat
  compression_applied : Bool
  split_file : Option String
deriving DecidableEq

/-- The full chat history file record (chat_history_file.rs, lines 42-54). -/
structure ChatHistoryFile where
  session_id : String
  created_at : String
  updated_at : String
  messages : List SimplifiedMessage
  metadata : ChatHistoryMetadata
deriving DecidableEq

/-- Error type of the history file service (chat_history_file.rs,
lines 56-64). IO error payloads are not modelled. -/
inductive ChatHistoryFileError where
  | io
  | json
  | noDataDir
deriving DecidableEq

/-- Shallow embedding of `estimate_token_count_fallback`
(chat_history_file.rs, lines 104-111): sum of the UTF-8 byte lengths of
sender and content (Rust `String::len` counts bytes) plus 2 per message,
divided by 3, cast to `u32` (hence the reduction modulo `2 ^ 32`). -/
def estimate_token_count_fallback (messages : List SimplifiedMessage) : Nat :=
  let total_chars := (messages.map (fun m => byteLen m.sender + byteLen m.content + 2)).sum
  total_chars / 3 % 2 ^ 32

/-- On-disk content of one history file: either well-formed serialized JSON
of a record, or bytes on which deserialization fails. The JSON encoding
itself is not modelled; the two cases are exactly the outcomes
`serde_json::from_str` distinguishes. -/
inductive FileBlob where
  | malformed
  | wellFormed (h : ChatHistoryFile)

/-- State of one file slot on disk: absent, or present with some content. -/
def FileState := Option FileBlob

/-- Shallow embedding of `read_chat_history` (chat_history_file.rs, lines
149-162), as a function of the state of the session's main history file:
absent file yields `none`; a present file is deserialized, malformed JSON
propagating as the serialization error. -/
def read_chat_history (fs : FileState) :
    Except ChatHistoryFileError (Option ChatHistoryFile) :=
  match fs with
  | none => .ok none
  | some .malformed => .error .json
  | some (.wellFormed h) => .ok (some h)

/-- Shallow embedding of `write_chat_history` (chat_history_file.rs, lines
115-145), returning the new state of the session's main file. `tok` is the
token estimator (`estimate_token_count`; its tiktoken-backed primary path is
an external dependency, so the estimator is a parameter here — the fallback
path is `estimate_token_count_fallback` above), `now` the current time
(`Utc::now().to_rfc3339()`). The previous file state `fs` is a parameter
only to make explicit that the write ignores it (plain overwrite). -/
def write_chat_history (tok : List SimplifiedMessage → Nat) (now : String)
    (session_id : String) (messages : List SimplifiedMessage)
    (compression_applied : Bool) (split_file : Option String)
    (_fs : FileState) : FileState :=
  some (.wellFormed
    { session_id := session_id, created_at := now, updated_at := now,
      messages := messages,
      metadata := { token_count := tok messages,
                    compression_applied := compression_applied,
                    split_file := split_file } })

/-- Shallow embedding of `create_split_file` (chat_history_file.rs, lines
166-194), returning the new state of the session's split file: a fresh
record with `compression_applied = false` and no nested split reference,
overwriting whatever was there. -/
def create_split_file (tok : List SimplifiedMessage → Nat) (now : String)
    (session_id : String) (messages : List SimplifiedMessage) : FileState :=
  some (.wellFormed
    { session_id := session_id, created_at := now, updated_at := now,
      messages := messages,
      metadata := { token_count := tok messages,
                    compression_applied := false,
                    split_file := none } })

/-- Shallow embedding of `append_to_split_file` (chat_history_file.rs, lines
197-213), as a function of the split file's current state: read the existing
split file if present (malformed content propagates the deserialization
error; an absent file starts from the empty sequence), extend its message
list with the new messages, and rewrite via `create_split_file`. -/
def append_to_split_file (tok : List SimplifiedMessage → Nat) (now : String)
    (session_id : String) (new_messages : List SimplifiedMessage)
    (fs : FileState) : Except ChatHistoryFileError FileState :=
  match fs with
  | some .malformed => .error .json
  | some (.wellFormed h) =>
    .ok (create_split_file tok now session_id (h.messages ++ new_messages))
  | none => .ok (create_split_file tok now session_id new_messages)

/-- Lifecycle status of a chat session (db `ChatSessionStatus`). -/
inductive ChatSessionStatus where
  | active
  | archived
deriving DecidableEq

/-- A chat session row, at the interface the chat core uses.
Modelled from the spec: the session store itself (db crate) is outside
`src/`; §3 and §6 specify identity, lifecycle status and a last-activity
timestamp reachable through lookup-by-identity and touch operations. -/
structure ChatSession where
  id : String
  status : ChatSessionStatus
  updated_at : String

/-- State of the primary relational store, as the chat core sees it.
Modelled from the spec: §6 lists the collaborator operations (session
lookup, agent directory lookup, message insert, session touch);
the state is the rows those operations read and write. -/
structure StoreState where
  sessions : List ChatSession
  agents : List ChatAgent
  messages : List ChatMessage

/-- One access to the relational store, recorded in order. -/
inductive DbAccess where
  | readSession
  | readAgent
  | insertMessage
  | touchSession
deriving DecidableEq

/-- Service error type of the chat service (chat.rs, lines 23-35).
The `Database`/`Io` wrappers carry external failures that the store model
(total functions) never produces. -/
inductive ChatServiceError where
  | sessionNotFound
  | sessionArchived
  | validation (msg : String)
deriving DecidableEq

/-- Modelled from the spec: `ChatSession::find_by_id` — session
lookup-by-identity in the external store (§6). -/
def findSession (st : StoreState) (session_id : String) : Option ChatSession :=
  st.sessions.find? (fun s => s.id == session_id)

/-- Modelled from the spec: `ChatSession::touch` — refresh the session's
last-activity timestamp (§6). -/
def touchSession (st : StoreState) (session_id : String) (now : String) : StoreState :=
  { st with sessions := st.sessions.map (fun s =>
      if s.id == session_id then { s with updated_at := now } else s) }

/-- Modelled from the spec: `ChatAgent::find_by_id` — agent directory
lookup (§6). -/
def findAgent (st : StoreState) (agent_id : String) : Option ChatAgent :=
  st.agents.find? (fun a => a.id == agent_id)

/-- The non-object-metadata wrap of `create_message_with_id` (chat.rs, lines
275-278): default to an empty object, wrap non-objects as `raw_meta`. -/
def normalizeMeta (meta : Option Jval) : Jval :=
  let m := meta.getD (.obj [])
  if m.isObj then m else .obj [("raw_meta", m)]

/-- JSON encoding of an optional string (`null` when absent). -/
def optStrJ : Option String → Jval
  | none => .null
  | some s => .str s

/-- Shallow embedding of `create_message_with_id` (chat.rs, lines 251-347).
The store is threaded explicitly and every store access is recorded in
order, so that "no store access" and "no mutation" are statable. `now`
stands for `Utc::now()` at the structured-snapshot stamp, and doubles as
the inserted row's creation timestamp. -/
def create_message_with_id (now : String) (st : StoreState)
    (session_id : String) (sender_type : ChatSenderType)
    (sender_id : Option String) (content : String) (meta : Option Jval)
    (message_id : String) :
    Except ChatServiceError ChatMessage × StoreState × List DbAccess :=
  if sender_type = .agent ∧ sender_id = none then
    (.error (.validation "sender_id is required for agent messages"), st, [])
  else
    match findSession st session_id with
    | none => (.error .sessionNotFound, st, [.readSession])
    | some session =>
      if session.status ≠ .active then
        (.error .sessionArchived, st, [.readSession])
      else
        let mentions := parse_mentions content
        let meta1 := normalizeMeta meta
        if trimChars content.toList = [] ∧ has_attachments meta1 = false then
          (.error (.validation "content cannot be empty"), st, [.readSession])
        else
          let sender_handle := (meta1.get? "sender_handle").bind Jval.asStr
          let agentLookup : Option String × List DbAccess :=
            if sender_type = .agent then
              match sender_id with
              | some agent_id => ((findAgent st agent_id).map (fun a => a.name), [.readAgent])
              | none => (none, [])
            else (none, [])
          let sender_name := agentLookup.1
          let sender_label :=
            match sender_type with
            | .user => sender_handle.getD "user"
            | .agent =>
              match sender_name with
              | some n => n
              | none =>
                match sender_id with
                | some id => id
                | none => "agent"
            | .system => "system"
          let senderBlock : Jval := .obj
            [("type", .str sender_type.tag), ("id", optStrJ sender_id),
             ("handle", optStrJ sender_handle), ("name", optStrJ sender_name),
             ("label", .str sender_label)]
          let meta2 :=
            if (meta1.get? "sender").isNone then meta1.set "sender" senderBlock
            else meta1
          let meta3 := meta2.set "structured" (.obj
            [("sender_type", .str sender_type.tag), ("sender_id", optStrJ sender_id),
             ("sender_handle", optStrJ sender_handle), ("sender_label", .str sender_label),
             ("content", .str content),
             ("mentions", .arr (mentions.map Jval.str)),
             ("created_at", .str now)])
          let message : ChatMessage :=
            { id := message_id, session_id := session_id,
              sender_type := sender_type, sender_id := sender_id,
              content := content, mentions := mentions, meta := meta3,
              created_at := now }
          let st1 := { st with messages := st.messages ++ [message] }
          let st2 := touchSession st1 session_id now
          (.ok message, st2,
            [.readSession] ++ agentLookup.2 ++ [.insertMessage, .touchSession])

/-- A `some` result of the backward scan lies in `[lo, hi)` and satisfies
the predicate. -/
theorem scanRev_some {p : Nat → Bool} {lo hi i : Nat} (h : scanRev p lo hi = some i) :
    lo ≤ i ∧ i < hi ∧ p i = true := by
  induction hi with
  | zero => simp [scanRev] at h
  | succ n ih =>
    unfold scanRev at h
    by_cases hlo : lo ≤ n
    · rw [if_pos hlo] at h
      by_cases hp : p n = true
      · rw [if_pos hp] at h; cases h; exact ⟨hlo, Nat.lt_succ_self _, hp⟩
      · rw [if_neg hp] at h
        obtain ⟨h1, h2, h3⟩ := ih h
        exact ⟨h1, Nat.lt_succ_of_lt h2, h3⟩
    · rw [if_neg hlo] at h; cases h

/-- Dropping trailing characters yields a prefix of the original list. -/
theorem dropTrailingPre (p : Char → Bool) (l : List Char) : dropTrailing p l <+: l := by
  unfold dropTrailing
  obtain ⟨t, ht⟩ := List.dropWhile_suffix (l := l.reverse) p
  refine ⟨t.reverse, ?_⟩
  have hrr : (t ++ l.reverse.dropWhile p).reverse = l := by rw [ht, List.reverse_reverse]
  rw [List.reverse_append] at hrr
  exact hrr

/-- A prefix of a list with no leading `p`-run has no leading `p`-run. -/
theorem dropWhile_eq_self_of_pre {p : Char → Bool} {l l' : List Char}
    (hl : l.dropWhile p = l) (h : l' <+: l) : l'.dropWhile p = l' := by
  cases l' with
  | nil => rfl
  | cons a t =>
    obtain ⟨r, hr⟩ := h
    by_cases hp : p a = true
    · exfalso
      rw [← hr, List.cons_append, List.dropWhile_cons, if_pos hp] at hl
      have hle := (List.dropWhile_suffix (l := t ++ r) p).length_le
      rw [hl] at hle
      simp only [List.length_cons] at hle
      omega
    · rw [List.dropWhile_cons, if_neg hp]

/-- `dropWhile` is idempotent. -/
theorem dropWhile_self (p : Char → Bool) (l : List Char) :
    (l.dropWhile p).dropWhile p = l.dropWhile p := by
  induction l with
  | nil => rfl
  | cons a t ih =>
    by_cases hp : p a = true
    · rw [List.dropWhile_cons, if_pos hp]; exact ih
    · rw [List.dropWhile_cons, if_neg hp, List.dropWhile_cons, if_neg hp]

/-- A trimmed list has no leading whitespace. -/
theorem trimChars_noLeading (l : List Char) :
    (trimChars l).dropWhile isRustWhitespace = trimChars l := by
  unfold trimChars
  exact dropWhile_eq_self_of_pre (dropWhile_self _ _) (dropTrailingPre _ _)

/-- Trimming a list with no leading whitespace yields a prefix of it. -/
theorem trimCharsPre_of_noLeading {l : List Char}
    (h : l.dropWhile isRustWhitespace = l) : trimChars l <+: l := by
  unfold trimChars
  rw [h]
  exact dropTrailingPre _ _

/-- Trimming never lengthens a list. -/
theorem trimChars_length_le (l : List Char) : (trimChars l).length ≤ l.length := by
  unfold trimChars
  have h1 := (dropTrailingPre isRustWhitespace (l.dropWhile isRustWhitespace)).length_le
  have h2 := (List.dropWhile_suffix (l := l) isRustWhitespace).length_le
  omega

/-- `take` yields a prefix. -/
theorem takePre (n : Nat) (l : List Char) : l.take n <+: l :=
  ⟨l.drop n, List.take_append_drop n l⟩

/-- When the trimmed content fits the budget, the compressor returns the
trimmed content. -/
theorem compress_content_fits (c : String) (mc : Nat)
    (h : (trimChars c.toList).length ≤ mc) :
    compress_content c mc = trimStr c := by
  unfold compress_content trimStr
  rw [if_pos h]

/-- When the trimmed content exceeds the budget, the compressor output is a
prefix of the trimmed content of length at most the budget, followed by the
truncation marker. -/
theorem compress_content_long (c : String) (mc : Nat)
    (h : mc < (trimChars c.toList).length) :
    ∃ pre, (compress_content c mc).toList = pre ++ truncationMarker ∧
      pre <+: trimChars c.toList ∧ pre.length ≤ mc := by
  have hfits : ¬ (trimChars c.toList).length ≤ mc := Nat.not_le.mpr h
  unfold compress_content
  rw [if_neg hfits]
  set cs := trimChars c.toList with hcs
  set bp1 := (match scanRev (fun i => decide (i < cs.length) && sentenceEnd (cs.getD i ' '))
      (mc / 2) mc with
    | some i => i + 1
    | none => mc) with hbp1
  have hbp1le : bp1 ≤ mc := by
    rw [hbp1]
    rcases hs : scanRev (fun i => decide (i < cs.length) && sentenceEnd (cs.getD i ' '))
        (mc / 2) mc with _ | i
    · exact le_refl mc
    · exact (scanRev_some hs).2.1
  set bp := (if bp1 = mc then
      match scanRev (fun i => decide (i < cs.length) && wordBoundary (cs.getD i ' '))
          (mc / 2) mc with
      | some i => i
      | none => mc
    else bp1) with hbp
  have hbple : bp ≤ mc := by
    rw [hbp]
    by_cases he : bp1 = mc
    · rw [if_pos he]
      rcases hs : scanRev (fun i => decide (i < cs.length) && wordBoundary (cs.getD i ' '))
          (mc / 2) mc with _ | i
      · exact le_refl mc
      · exact le_of_lt (scanRev_some hs).2.1
    · rw [if_neg he]; exact hbp1le
  refine ⟨trimChars (cs.take (min bp cs.length)), rfl, ?_, ?_⟩
  · have hNL : cs.dropWhile isRustWhitespace = cs := by
      rw [hcs]; exact trimChars_noLeading c.toList
    have htake : (cs.take (min bp cs.length)).dropWhile isRustWhitespace
        = cs.take (min bp cs.length) :=
      dropWhile_eq_self_of_pre hNL (takePre _ _)
    calc trimChars (cs.take (min bp cs.length))
        = dropTrailing isRustWhitespace (cs.take (min bp cs.length)) := by
          unfold trimChars; rw [htake]
      _ <+: cs.take (min bp cs.length) := dropTrailingPre _ _
      _ <+: cs := takePre _ _
  · have h1 : (trimChars (cs.take (min bp cs.length))).length
        ≤ (cs.take (min bp cs.length)).length := trimChars_length_le _
    have h2 : (cs.take (min bp cs.length)).length = min (min bp cs.length) cs.length := by
      rw [List.length_take]
    omega

/-- The compressor's output never exceeds the budget plus the marker. -/
theorem compress_content_le_budget (content : String) (mc : Nat) :
    charLen (compress_content content mc) ≤ mc + truncationMarker.length := by
  by_cases hc : (trimChars content.toList).length ≤ mc
  · rw [compress_content_fits content mc hc]
    exact le_trans hc (Nat.le_add_right _ _)
  · obtain ⟨pre, hout, _, hlen⟩ := compress_content_long content mc (Nat.not_le.mp hc)
    unfold charLen
    rw [hout, List.length_append]
    omega

/-- C3: for every content string and budget `b ≥ 1`, the compressor returns
the trimmed content unchanged when it fits the budget; otherwise its output
is at most `b` plus the marker length characters long, and with the marker
removed is a strict prefix of the trimmed input. -/
theorem compress_content_spec (content : String) (b : Nat) (_hb : 1 ≤ b) :
    (charLen (trimStr content) ≤ b → compress_content content b = trimStr content) ∧
    (b < charLen (trimStr content) →
      charLen (compress_content content b) ≤ b + truncationMarker.length ∧
      ∃ pre, (compress_content content b).toList = pre ++ truncationMarker ∧
        pre <+: (trimStr content).toList ∧ pre.length < charLen (trimStr content)) := by
  constructor
  · intro hle
    exact compress_content_fits content b hle
  · intro hlt
    obtain ⟨pre, hout, hpre, hlen⟩ := compress_content_long content b hlt
    refine ⟨?_, pre, hout, hpre, lt_of_le_of_lt hlen hlt⟩
    unfold charLen
    rw [hout, List.length_append]
    omega

/-- Witness for C3 at content `"abcdef"` and budget `3`. -/
theorem compress_content_spec_witness :
    1 ≤ 3 ∧
    ((charLen (trimStr "abcdef") ≤ 3 → compress_content "abcdef" 3 = trimStr "abcdef") ∧
     (3 < charLen (trimStr "abcdef") →
       charLen (compress_content "abcdef" 3) ≤ 3 + truncationMarker.length ∧
       ∃ pre, (compress_content "abcdef" 3).toList = pre ++ truncationMarker ∧
         pre <+: (trimStr "abcdef").toList ∧ pre.length < charLen (trimStr "abcdef"))) :=
  ⟨by decide, compress_content_spec "abcdef" 3 (by decide)⟩

/-- C4 counterexample: on input `"ab"` with budget `1` the output
`"a...[truncated]"` has 15 characters, more than the 2-character input, so
`compress_content` can expand content. -/
theorem compress_content_can_expand :
    charLen "ab" = 2 ∧ charLen (compress_content "ab" 1) = 15 ∧
    ¬ charLen (compress_content "ab" 1) ≤ charLen "ab" := by decide

/-- C4 amended: the compressor never expands content by more than the
truncation marker length (14 characters); when the trimmed input already
fits the budget the output never exceeds the input length at all. -/
theorem compress_content_growth (content : String) (max_chars : Nat) :
    charLen (compress_content content max_chars)
      ≤ charLen content + truncationMarker.length ∧
    (charLen (trimStr content) ≤ max_chars →
      charLen (compress_content content max_chars) ≤ charLen content) := by
  have htrim : (trimChars content.toList).length ≤ charLen content :=
    trimChars_length_le content.toList
  by_cases hc : (trimChars content.toList).length ≤ max_chars
  · rw [compress_content_fits content max_chars hc]
    exact ⟨le_trans htrim (Nat.le_add_right _ _), fun _ => htrim⟩
  · obtain ⟨pre, hout, hpre, _⟩ :=
      compress_content_long content max_chars (Nat.not_le.mp hc)
    have hplen := hpre.length_le
    constructor
    · unfold charLen at htrim ⊢
      rw [hout, List.length_append]
      omega
    · intro hfits
      exact absurd hfits hc

/-- Witness for the amended C4 at content `"hi"` and budget `5`. -/
theorem compress_content_growth_witness :
    charLen (trimStr "hi") ≤ 5 ∧ charLen (compress_content "hi" 5) ≤ charLen "hi" :=
  ⟨by decide, (compress_content_growth "hi" 5).2 (by decide)⟩

/-- The mention accumulator stays duplicate-free: every accumulated mention
is in the seen-set, and a name is only appended when not yet seen. -/
theorem parseMentionsGo_nodup :
    ∀ (rest : List Char) (prev : Option Char) (seen acc : List String),
      acc.Nodup → (∀ m, m ∈ acc → m ∈ seen) →
      (parseMentionsGo prev rest seen acc).Nodup := by
  intro rest
  induction rest with
  | nil => intro prev seen acc hnd _; exact hnd
  | cons c t ih =>
    intro prev seen acc hnd hsub
    unfold parseMentionsGo
    split
    · dsimp only
      split
      · rename_i hcond
        apply ih
        · rw [List.nodup_append]
          refine ⟨hnd, List.nodup_singleton _, ?_⟩
          intro a ha hmem
          rw [List.mem_singleton] at hmem
          subst hmem
          exact hcond.2 (by simpa using hsub _ ha)
        · intro m hm
          rcases List.mem_append.mp hm with h | h
          · exact List.mem_cons_of_mem _ (hsub m h)
          · rw [List.mem_singleton] at h
            subst h
            exact List.mem_cons_self _ _
      · exact ih _ _ _ hnd hsub
    · exact ih _ _ _ hnd hsub

/-- C5: `parse_mentions` never returns duplicates; it is total; handles are
matched case-sensitively without normalization in first-occurrence order;
and an `@` preceded by an alphanumeric, underscore, hyphen or dot character
starts no mention, so an email-like token yields none. -/
theorem parse_mentions_spec :
    (∀ text : String, (parse_mentions text).Nodup) ∧
    parse_mentions "email me at test@example.com" = [] ∧
    parse_mentions "@coder please check @planner" = ["coder", "planner"] ∧
    parse_mentions "@a @a @b" = ["a", "b"] ∧
    parse_mentions "@Alice @alice" = ["Alice", "alice"] := by
  refine ⟨?_, by decide, by decide, by decide, by decide⟩
  intro text
  exact parseMentionsGo_nodup text.toList none [] [] List.nodup_nil
    (by intro m hm; cases hm)

/-- A placeholder message used only as the default of total list indexing in
theorem statements. -/
def defaultMessage : ChatMessage :=
  { id := "", session_id := "", sender_type := .system, sender_id := none,
    content := "", mentions := [], meta := .obj [], created_at := "" }

/-- A placeholder entry used only as the default of total list indexing in
theorem statements. -/
def defaultEntry : ContextEntry :=
  { id := "", session_id := "", created_at := "",
    sender := { stype := .system, id := none, handle := none, name := none, label := "" },
    content := "", mentions := [], meta := .obj [], compressed := false }

/-- `mapWithIdx` preserves length. -/
theorem mapWithIdx_length (f : Nat → α → β) (k : Nat) (l : List α) :
    (mapWithIdx f k l).length = l.length := by
  induction l generalizing k with
  | nil => rfl
  | cons a t ih => simp [mapWithIdx, ih]

/-- Indexing into `mapWithIdx` applies the function at the shifted index. -/
theorem mapWithIdx_getD (f : Nat → α → β) (d : β) (da : α) :
    ∀ (l : List α) (k i : Nat), i < l.length →
      (mapWithIdx f k l).getD i d = f (k + i) (l.getD i da) := by
  intro l
  induction l with
  | nil => intro k i h; simp at h
  | cons a t ih =>
    intro k i h
    cases i with
    | zero => simp [mapWithIdx]
    | succ n =>
      have hn : n < t.length := by simpa using h
      simp only [mapWithIdx, List.getD_cons_succ]
      rw [ih (k + 1) n hn]
      congr 1
      omega

/-- The projections of a context entry that do not depend on the compression
tier: identity, session, timestamp, sender descriptor, mentions. -/
theorem mkEntry_fixed (agents : List ChatAgent) (count idx : Nat) (m : ChatMessage) :
    (mkEntry agents count idx m).id = m.id ∧
    (mkEntry agents count idx m).session_id = m.session_id ∧
    (mkEntry agents count idx m).created_at = m.created_at ∧
    (mkEntry agents count idx m).sender = resolveSender agents m ∧
    (mkEntry agents count idx m).mentions = m.mentions :=
  ⟨rfl, rfl, rfl, rfl, rfl⟩

/-- A recent entry (index within the last `RECENT_MESSAGES_FULL` of the
window) is unflagged and keeps full content and metadata. -/
theorem mkEntry_recent (agents : List ChatAgent) (count idx : Nat) (m : ChatMessage)
    (h : count - RECENT_MESSAGES_FULL ≤ idx) :
    (mkEntry agents count idx m).compressed = false ∧
    (mkEntry agents count idx m).content = m.content ∧
    (mkEntry agents count idx m).meta = m.meta := by
  unfold mkEntry
  dsimp only
  rw [if_pos h, if_pos h]
  simp [h]

/-- A non-recent entry is flagged compressed and carries the compressor's
output at the clamped budget. -/
theorem mkEntry_old (agents : List ChatAgent) (count idx : Nat) (m : ChatMessage)
    (h : ¬ count - RECENT_MESSAGES_FULL ≤ idx) :
    (mkEntry agents count idx m).compressed = true ∧
    (mkEntry agents count idx m).content =
      compress_content m.content (compressionBudget (charLen m.content)) := by
  unfold mkEntry
  dsimp only
  rw [if_neg h]
  simp [h]

/-- With more than 30 messages the window is the 30-message suffix. -/
theorem contextWindow_gt {msgs : List ChatMessage} (h : 30 < msgs.length) :
    contextWindow msgs = msgs.drop (msgs.length - 30) ∧
    (contextWindow msgs).length = 30 := by
  unfold contextWindow MAX_CONTEXT_MESSAGES
  rw [if_pos h]
  refine ⟨rfl, ?_⟩
  rw [List.length_drop]
  omega

/-- With at most 30 messages the window is the whole list. -/
theorem contextWindow_le {msgs : List ChatMessage} (h : msgs.length ≤ 30) :
    contextWindow msgs = msgs := by
  unfold contextWindow MAX_CONTEXT_MESSAGES
  rw [if_neg (by omega)]

/-- C1: with more than 30 messages, the compacted context has exactly 30
entries corresponding index-by-index (identity, timestamp) to the
most-recent-30 suffix of the ascending message list; entries at indices
25..29 (the most recent 5) are unflagged with full content and metadata,
entries at indices 0..24 are flagged compressed. With at most 30 messages
all are returned and exactly those older than the most recent 5 are
flagged. -/
theorem build_compacted_context_spec (agents : List ChatAgent) (msgs : List ChatMessage) :
    (30 < msgs.length →
      (build_structured_messages_with_compression agents msgs).length = 30 ∧
      (∀ i, i < 30 →
        ((build_structured_messages_with_compression agents msgs).getD i defaultEntry).id =
          ((msgs.drop (msgs.length - 30)).getD i defaultMessage).id ∧
        ((build_structured_messages_with_compression agents msgs).getD i defaultEntry).created_at =
          ((msgs.drop (msgs.length - 30)).getD i defaultMessage).created_at ∧
        ((build_structured_messages_with_compression agents msgs).getD i defaultEntry).compressed =
          decide (i < 25) ∧
        (25 ≤ i →
          ((build_structured_messages_with_compression agents msgs).getD i defaultEntry).content =
            ((msgs.drop (msgs.length - 30)).getD i defaultMessage).content ∧
          ((build_structured_messages_with_compression agents msgs).getD i defaultEntry).meta =
            ((msgs.drop (msgs.length - 30)).getD i defaultMessage).meta))) ∧
    (msgs.length ≤ 30 →
      (build_structured_messages_with_compression agents msgs).length = msgs.length ∧
      (∀ i, i < msgs.length →
        ((build_structured_messages_with_compression agents msgs).getD i defaultEntry).compressed =
          decide (i < msgs.length - 5) ∧
        (msgs.length - 5 ≤ i →
          ((build_structured_messages_with_compression agents msgs).getD i defaultEntry).content =
            (msgs.getD i defaultMessage).content ∧
          ((build_structured_messages_with_compression agents msgs).getD i defaultEntry).meta =
            (msgs.getD i defaultMessage).meta))) := by
  constructor
  · intro hgt
    obtain ⟨hw, hwlen⟩ := contextWindow_gt hgt
    have hblen : (build_structured_messages_with_compression agents msgs).length = 30 := by
      unfold build_structured_messages_with_compression
      rw [mapWithIdx_length, hwlen]
    refine ⟨hblen, ?_⟩
    intro i hi
    have hg : (build_structured_messages_with_compression agents msgs).getD i defaultEntry =
        mkEntry agents 30 i ((msgs.drop (msgs.length - 30)).getD i defaultMessage) := by
      unfold build_structured_messages_with_compression
      rw [mapWithIdx_getD _ _ defaultMessage _ 0 i (by omega), Nat.zero_add, hwlen, hw]
    rw [hg]
    obtain ⟨h1, _, h3, _, _⟩ :=
      mkEntry_fixed agents 30 i ((msgs.drop (msgs.length - 30)).getD i defaultMessage)
    refine ⟨h1, h3, ?_, ?_⟩
    · by_cases h25 : 25 ≤ i
      · have hrec : 30 - RECENT_MESSAGES_FULL ≤ i := h25
        rw [(mkEntry_recent agents 30 i _ hrec).1]
        simp
        omega
      · have hrec : ¬ 30 - RECENT_MESSAGES_FULL ≤ i := h25
        rw [(mkEntry_old agents 30 i _ hrec).1]
        simp
        omega
    · intro h25
      have hrec : 30 - RECENT_MESSAGES_FULL ≤ i := h25
      exact ⟨(mkEntry_recent agents 30 i _ hrec).2.1, (mkEntry_recent agents 30 i _ hrec).2.2⟩
  · intro hle
    have hw := contextWindow_le hle
    have hblen : (build_structured_messages_with_compression agents msgs).length = msgs.length := by
      unfold build_structured_messages_with_compression
      rw [mapWithIdx_length, hw]
    refine ⟨hblen, ?_⟩
    intro i hi
    have hg : (build_structured_messages_with_compression agents msgs).getD i defaultEntry =
        mkEntry agents msgs.length i (msgs.getD i defaultMessage) := by
      unfold build_structured_messages_with_compression
      rw [hw, mapWithIdx_getD _ _ defaultMessage _ 0 i hi, Nat.zero_add]
    rw [hg]
    constructor
    · by_cases hr : msgs.length - 5 ≤ i
      · have hrec : msgs.length - RECENT_MESSAGES_FULL ≤ i := hr
        rw [(mkEntry_recent agents msgs.length i _ hrec).1]
        simp
        omega
      · have hrec : ¬ msgs.length - RECENT_MESSAGES_FULL ≤ i := hr
        rw [(mkEntry_old agents msgs.length i _ hrec).1]
        simp
        omega
    · intro hr
      have hrec : msgs.length - RECENT_MESSAGES_FULL ≤ i := hr
      exact ⟨(mkEntry_recent agents msgs.length i _ hrec).2.1,
        (mkEntry_recent agents msgs.length i _ hrec).2.2⟩
set_option maxRecDepth 10000

/-- Witness for C1 on a 31-message and a 6-message session. -/
theorem build_compacted_context_spec_witness :
    30 < (List.replicate 31 defaultMessage).length ∧
    (build_structured_messages_with_compression [] (List.replicate 31 defaultMessage)).length = 30 ∧
    ((build_structured_messages_with_compression [] (List.replicate 31 defaultMessage)).getD 27
        defaultEntry).compressed = decide (27 < 25) ∧
    ((build_structured_messages_with_compression [] (List.replicate 31 defaultMessage)).getD 27
        defaultEntry).content =
      (((List.replicate 31 defaultMessage).drop ((List.replicate 31 defaultMessage).length - 30)).getD
        27 defaultMessage).content ∧
    (build_structured_messages_with_compression [] (List.replicate 6 defaultMessage)).length =
      (List.replicate 6 defaultMessage).length :=
  ⟨by decide,
   ((build_compacted_context_spec [] (List.replicate 31 defaultMessage)).1 (by decide)).1,
   ((((build_compacted_context_spec [] (List.replicate 31 defaultMessage)).1 (by decide)).2 27
      (by decide))).2.2.1,
   (((((build_compacted_context_spec [] (List.replicate 31 defaultMessage)).1 (by decide)).2 27
      (by decide))).2.2.2 (by decide)).1,
   ((build_compacted_context_spec [] (List.replicate 6 defaultMessage)).2 (by decide)).1⟩

/-- C2 amended: every compressed entry's content is the compressor's output
on the source message at the budget of 40% of the original character count
clamped to `[100, 500]`; the content's character length is at most 500 plus
the truncation marker length (514). The original claim's output bounds
`≤ 500` and `≥ 100` hold for the budget, not for the output (see the
counterexample). -/
theorem compressed_entry_spec (agents : List ChatAgent) (msgs : List ChatMessage)
    (i : Nat) (hi : i < (build_structured_messages_with_compression agents msgs).length)
    (hcomp : ((build_structured_messages_with_compression agents msgs).getD i
      defaultEntry).compressed = true) :
    100 ≤ compressionBudget (charLen ((contextWindow msgs).getD i defaultMessage).content) ∧
    compressionBudget (charLen ((contextWindow msgs).getD i defaultMessage).content) ≤ 500 ∧
    ((build_structured_messages_with_compression agents msgs).getD i defaultEntry).content =
      compress_content ((contextWindow msgs).getD i defaultMessage).content
        (compressionBudget (charLen ((contextWindow msgs).getD i defaultMessage).content)) ∧
    charLen (((build_structured_messages_with_compression agents msgs).getD i
        defaultEntry).content) ≤ 500 + truncationMarker.length := by
  have hlen : (build_structured_messages_with_compression agents msgs).length =
      (contextWindow msgs).length := by
    unfold build_structured_messages_with_compression
    rw [mapWithIdx_length]
  have hg : (build_structured_messages_with_compression agents msgs).getD i defaultEntry =
      mkEntry agents (contextWindow msgs).length i
        ((contextWindow msgs).getD i defaultMessage) := by
    unfold build_structured_messages_with_compression
    rw [mapWithIdx_getD _ _ defaultMessage _ 0 i (by omega), Nat.zero_add]
  rw [hg] at hcomp ⊢
  by_cases hrec : (contextWindow msgs).length - RECENT_MESSAGES_FULL ≤ i
  · exfalso
    rw [(mkEntry_recent agents _ i _ hrec).1] at hcomp
    cases hcomp
  · obtain ⟨_, hcont⟩ := mkEntry_old agents (contextWindow msgs).length i
      ((contextWindow msgs).getD i defaultMessage) hrec
    have hb100 : 100 ≤ compressionBudget
        (charLen ((contextWindow msgs).getD i defaultMessage).content) := by
      unfold compressionBudget
      omega
    have hb500 : compressionBudget
        (charLen ((contextWindow msgs).getD i defaultMessage).content) ≤ 500 := by
      unfold compressionBudget
      omega
    refine ⟨hb100, hb500, hcont, ?_⟩
    rw [hcont]
    have hle := compress_content_le_budget ((contextWindow msgs).getD i defaultMessage).content
      (compressionBudget (charLen ((contextWindow msgs).getD i defaultMessage).content))
    omega

/-- Witness for the amended C2 on a 6-message session. -/
theorem compressed_entry_spec_witness :
    0 < (build_structured_messages_with_compression [] (List.replicate 6 defaultMessage)).length ∧
    ((build_structured_messages_with_compression [] (List.replicate 6 defaultMessage)).getD 0
      defaultEntry).compressed = true ∧
    charLen (((build_structured_messages_with_compression [] (List.replicate 6
      defaultMessage)).getD 0 defaultEntry).content) ≤ 500 + truncationMarker.length :=
  ⟨by decide, by decide,
   (compressed_entry_spec [] (List.replicate 6 defaultMessage) 0 (by decide) (by decide)).2.2.2⟩

/-- A 1300-character message: its compression budget clamps to 500 and no
break point exists, so the compressed content is 500 characters plus the
marker. -/
def longA : ChatMessage := { defaultMessage with content := ⟨List.replicate 1300 'a'⟩ }

/-- A 300-character message whose only sentence end sits at index 60, just
above half the 120-character budget. -/
def sentMsg : ChatMessage :=
  { defaultMessage with content := ⟨List.replicate 60 'a' ++ ['.'] ++ List.replicate 239 'b'⟩ }

/-- Six messages whose oldest is `longA`: the oldest entry is compressed. -/
def cexUpper : List ChatMessage := longA :: List.replicate 5 defaultMessage

/-- Six messages whose oldest is `sentMsg`: the oldest entry is compressed. -/
def cexLower : List ChatMessage := sentMsg :: List.replicate 5 defaultMessage

/-- C2 counterexample: a compressed 1300-character message yields content of
514 characters, violating the claimed `≤ 500`; and a compressed
300-character message with a sentence break at position 60 yields content
of 75 characters, violating the claimed `≥ 100` (the original was not
shorter than 100). -/
theorem compressed_entry_bounds_cex :
    (((build_structured_messages_with_compression [] cexUpper).getD 0
        defaultEntry).compressed = true ∧
      charLen longA.content = 1300 ∧
      charLen (((build_structured_messages_with_compression [] cexUpper).getD 0
        defaultEntry).content) = 514 ∧
      ¬ charLen (((build_structured_messages_with_compression [] cexUpper).getD 0
        defaultEntry).content) ≤ 500) ∧
    (((build_structured_messages_with_compression [] cexLower).getD 0
        defaultEntry).compressed = true ∧
      charLen sentMsg.content = 300 ∧
      charLen (((build_structured_messages_with_compression [] cexLower).getD 0
        defaultEntry).content) = 75 ∧
      ¬ 100 ≤ charLen (((build_structured_messages_with_compression [] cexLower).getD 0
        defaultEntry).content)) := by decide

/-- C8: reading a session's history returns none when no file exists,
the deserialized record when a well-formed file exists, and the hard
serialization error — never the none outcome — when the file holds
malformed JSON. -/
theorem read_chat_history_spec :
    read_chat_history none = .ok none ∧
    (∀ h : ChatHistoryFile, read_chat_history (some (.wellFormed h)) = .ok (some h)) ∧
    read_chat_history (some .malformed) = .error .json :=
  ⟨rfl, fun _ => rfl, rfl⟩

/-- C7: appending `A` and then `B` to a session with no split file yields a
split file whose message sequence is exactly `A ++ B`; in general each call
reads the existing split file if present (else starts empty), appends the
new messages in order and rewrites the file via `create_split_file`. -/
theorem append_to_split_spec (tok : List SimplifiedMessage → Nat) (t1 t2 sid : String)
    (A B : List SimplifiedMessage) :
    (∃ h, ((append_to_split_file tok t1 sid A none).bind
        (append_to_split_file tok t2 sid B)) = .ok (some (.wellFormed h)) ∧
      h.messages = A ++ B) ∧
    (∀ g : ChatHistoryFile, append_to_split_file tok t2 sid B (some (.wellFormed g)) =
      .ok (create_split_file tok t2 sid (g.messages ++ B))) ∧
    append_to_split_file tok t1 sid A none = .ok (create_split_file tok t1 sid A) :=
  ⟨⟨_, rfl, rfl⟩, fun _ => rfl, rfl⟩

/-- C10: both `write_chat_history` and `create_split_file` stamp the
written record with `created_at = updated_at =` the current write time,
regardless of any previously existing file — rewriting a session's file
does not preserve the original creation timestamp. -/
theorem write_fresh_timestamps (tok : List SimplifiedMessage → Nat) (now sid : String)
    (msgs : List SimplifiedMessage) (comp : Bool) (split : Option String)
    (fs fs2 : FileState) :
    (∃ h, write_chat_history tok now sid msgs comp split fs = some (.wellFormed h) ∧
      h.created_at = now ∧ h.updated_at = now) ∧
    (∃ h, create_split_file tok now sid msgs = some (.wellFormed h) ∧
      h.created_at = now ∧ h.updated_at = now) ∧
    write_chat_history tok now sid msgs comp split fs =
      write_chat_history tok now sid msgs comp split fs2 :=
  ⟨⟨_, rfl, rfl, rfl⟩, ⟨_, rfl, rfl, rfl⟩, rfl⟩

/-- The fallback estimator as the claim words it, counting characters
rather than bytes: per message the character counts of sender and content
plus 2, summed, divided by 3. Stated from the claim's words, for comparison
with the source embedding `estimate_token_count_fallback`. -/
def fallbackByCharCount (messages : List SimplifiedMessage) : Nat :=
  ((messages.map (fun m => charLen m.sender + charLen m.content + 2)).sum) / 3

/-- A message whose content is one CJK character: one character, three
UTF-8 bytes. -/
def cjkMsg : SimplifiedMessage := { sender := "a", content := "你", timestamp := "" }

/-- C9 counterexample: the Rust fallback sums `String::len`, i.e. UTF-8
byte lengths, not character counts: on a message with sender `"a"` and
content `"你"` it returns `(1 + 3 + 2) / 3 = 2` where the claimed
character-count formula gives `(1 + 1 + 2) / 3 = 1`. -/
theorem estimate_fallback_bytes_cex :
    estimate_token_count_fallback [cjkMsg] = 2 ∧
    fallbackByCharCount [cjkMsg] = 1 ∧
    estimate_token_count_fallback [cjkMsg] ≠ fallbackByCharCount [cjkMsg] := by decide

/-- C9 amended: the fallback estimator never fails (it is total), returns
0 for the empty list, computes the total UTF-8 byte length (sender plus
content plus 2 per message) divided by 3 and floored (reduced modulo
`2 ^ 32` by the `u32` cast), and is monotonically non-decreasing as any
message's content grows in byte length while the unwrapped estimate stays
below `2 ^ 32`. -/
theorem estimate_token_count_fallback_spec :
    estimate_token_count_fallback [] = 0 ∧
    (∀ pre post : List SimplifiedMessage, ∀ m1 m2 : SimplifiedMessage,
      m1.sender = m2.sender →
      byteLen m1.content ≤ byteLen m2.content →
      ((pre ++ [m2] ++ post).map
        (fun m => byteLen m.sender + byteLen m.content + 2)).sum / 3 < 2 ^ 32 →
      estimate_token_count_fallback (pre ++ [m1] ++ post) ≤
        estimate_token_count_fallback (pre ++ [m2] ++ post)) := by
  refine ⟨rfl, ?_⟩
  intro pre post m1 m2 hs hb hlt
  unfold estimate_token_count_fallback
  have hsum : ∀ m : SimplifiedMessage,
      ((pre ++ [m] ++ post).map (fun x => byteLen x.sender + byteLen x.content + 2)).sum =
      (pre.map (fun x => byteLen x.sender + byteLen x.content + 2)).sum +
        (byteLen m.sender + byteLen m.content + 2) +
        (post.map (fun x => byteLen x.sender + byteLen x.content + 2)).sum := by
    intro m
    simp [List.map_append, List.sum_append]
    omega
  have hss : byteLen m1.sender = byteLen m2.sender := by rw [hs]
  rw [hsum m1, hsum m2]
  rw [hsum m2] at hlt
  dsimp only
  have hdiv : (pre.map (fun x => byteLen x.sender + byteLen x.content + 2)).sum +
      (byteLen m1.sender + byteLen m1.content + 2) +
      (post.map (fun x => byteLen x.sender + byteLen x.content + 2)).sum ≤
      (pre.map (fun x => byteLen x.sender + byteLen x.content + 2)).sum +
      (byteLen m2.sender + byteLen m2.content + 2) +
      (post.map (fun x => byteLen x.sender + byteLen x.content + 2)).sum := by
    omega
  have h1 := Nat.div_le_div_right (c := 3) hdiv
  rw [Nat.mod_eq_of_lt (lt_of_le_of_lt h1 hlt), Nat.mod_eq_of_lt hlt]
  exact h1

/-- Witness message with a one-byte content. -/
def wmsgX : SimplifiedMessage := ⟨"a", "x", ""⟩

/-- Witness message with a two-byte content and the same sender. -/
def wmsgXY : SimplifiedMessage := ⟨"a", "xy", ""⟩

/-- Witness for the amended C9 monotonicity at two one-message lists. -/
theorem estimate_token_count_fallback_spec_witness :
    wmsgX.sender = wmsgXY.sender ∧
    byteLen wmsgX.content ≤ byteLen wmsgXY.content ∧
    (([] ++ [wmsgXY] ++ [] : List SimplifiedMessage).map
      (fun m => byteLen m.sender + byteLen m.content + 2)).sum / 3 < 2 ^ 32 ∧
    estimate_token_count_fallback ([] ++ [wmsgX] ++ []) ≤
      estimate_token_count_fallback ([] ++ [wmsgXY] ++ []) :=
  ⟨by decide, by decide, by decide,
   estimate_token_count_fallback_spec.2 [] [] wmsgX wmsgXY
     (by decide) (by decide) (by decide)⟩

/-- C6: each failing validation step of `create_message_with_id` — agent
sender without identity, session not found, session archived, empty trimmed
content without attachments — returns its distinct error with the store
unchanged and neither an insert nor a touch performed; the
agent-without-identity check fails before any store access at all (empty
access log). -/
theorem create_message_validation (now : String) (st : StoreState)
    (session_id : String) (sender_type : ChatSenderType) (sender_id : Option String)
    (content : String) (meta : Option Jval) (message_id : String) :
    (sender_type = .agent → sender_id = none →
      create_message_with_id now st session_id sender_type sender_id content meta message_id =
        (.error (.validation "sender_id is required for agent messages"), st, [])) ∧
    (¬ (sender_type = .agent ∧ sender_id = none) →
      findSession st session_id = none →
      create_message_with_id now st session_id sender_type sender_id content meta message_id =
        (.error .sessionNotFound, st, [.readSession])) ∧
    (∀ s, ¬ (sender_type = .agent ∧ sender_id = none) →
      findSession st session_id = some s → s.status ≠ .active →
      create_message_with_id now st session_id sender_type sender_id content meta message_id =
        (.error .sessionArchived, st, [.readSession])) ∧
    (∀ s, ¬ (sender_type = .agent ∧ sender_id = none) →
      findSession st session_id = some s → s.status = .active →
      trimChars content.toList = [] → has_attachments (normalizeMeta meta) = false →
      create_message_with_id now st session_id sender_type sender_id content meta message_id =
        (.error (.validation "content cannot be empty"), st, [.readSession])) ∧
    (∀ e st2 log,
      create_message_with_id now st session_id sender_type sender_id content meta message_id =
        (.error e, st2, log) →
      st2 = st ∧ DbAccess.insertMessage ∉ log ∧ DbAccess.touchSession ∉ log) := by
  refine ⟨?_, ?_, ?_, ?_, ?_⟩
  · intro h1 h2
    unfold create_message_with_id
    rw [if_pos ⟨h1, h2⟩]
  · intro hno hfind
    unfold create_message_with_id
    rw [if_neg hno, hfind]
  · intro s hno hfind harch
    unfold create_message_with_id
    rw [if_neg hno, hfind]
    dsimp only
    rw [if_pos harch]
  · intro s hno hfind hact hempty hatt
    unfold create_message_with_id
    rw [if_neg hno, hfind]
    dsimp only
    rw [if_neg (by simp [hact]), if_pos ⟨hempty, hatt⟩]
  · intro e st2 log heq
    by_cases h1 : sender_type = .agent ∧ sender_id = none
    · unfold create_message_with_id at heq
      rw [if_pos h1] at heq
      simp only [Prod.mk.injEq] at heq
      refine ⟨heq.2.1.symm, ?_, ?_⟩ <;> rw [← heq.2.2] <;> simp
    · unfold create_message_with_id at heq
      rw [if_neg h1] at heq
      rcases hfind : findSession st session_id with _ | s
      · rw [hfind] at heq
        simp only [Prod.mk.injEq] at heq
        refine ⟨heq.2.1.symm, ?_, ?_⟩ <;> rw [← heq.2.2] <;> simp
      · rw [hfind] at heq
        dsimp only at heq
        by_cases harch : s.status ≠ .active
        · rw [if_pos harch] at heq
          simp only [Prod.mk.injEq] at heq
          refine ⟨heq.2.1.symm, ?_, ?_⟩ <;> rw [← heq.2.2] <;> simp
        · rw [if_neg harch] at heq
          by_cases hval : trimChars content.toList = [] ∧
              has_attachments (normalizeMeta meta) = false
          · rw [if_pos hval] at heq
            simp only [Prod.mk.injEq] at heq
            refine ⟨heq.2.1.symm, ?_, ?_⟩ <;> rw [← heq.2.2] <;> simp
          · rw [if_neg hval] at heq
            exfalso
            simp only [Prod.mk.injEq] at heq
            exact absurd heq.1 (by simp)

/-- A store with one active session, used by the C6 witness. -/
def witnessStore : StoreState :=
  { sessions := [{ id := "s1", status := .active, updated_at := "t0" }],
    agents := [], messages := [] }

/-- Witness for C6: the agent-without-identity and empty-content failures
on a concrete store. -/
theorem create_message_validation_witness :
    create_message_with_id "t1" witnessStore "s1" .agent none "hello" none "m1" =
      (.error (.validation "sender_id is required for agent messages"), witnessStore, []) ∧
    create_message_with_id "t1" witnessStore "s1" .user none " " none "m1" =
      (.error (.validation "content cannot be empty"), witnessStore, [.readSession]) ∧
    (∀ e st2 log,
      create_message_with_id "t1" witnessStore "s1" .agent none "hello" none "m1" =
        (.error e, st2, log) →
      st2 = witnessStore ∧ DbAccess.insertMessage ∉ log ∧ DbAccess.touchSession ∉ log) :=
  ⟨(create_message_validation "t1" witnessStore "s1" .agent none "hello" none "m1").1 rfl rfl,
   (create_message_validation "t1" witnessStore "s1" .user none " " none "m1").2.2.2.1
     ⟨"s1", .active, "t0"⟩ (by decide) rfl rfl (by decide) (by decide),
   (create_message_validation "t1" witnessStore "s1" .agent none "hello" none "m1").2.2.2.2⟩
